import Mathlib

/-!
# Verification of the multi-step medical intake form (`src/script.js`)

Shallow embedding of the form-state bookkeeping of `script.js`:
validation rules, the step controller, persistence (localStorage
snapshot), the provider combobox and the allergy chip list.

DOM side effects (CSS classes, focus, ARIA announcements) are modelled
only insofar as the claims mention them (e.g. which field receives
focus on a refused transition, which notice an allergy add produces).
Machine integers do not occur: JavaScript numbers that matter here are
either small integers (modelled as `Int`) or, where coercion/NaN
semantics is at stake (the restored `step`), modelled as `Option ℚ`
with `none` standing for NaN.
-/

namespace Intake

/-! ## JS string helpers (`script.js` lines 130-139) -/

/-- JS `String.prototype.trim`: strip leading and trailing whitespace.
Written over the character list so that the kernel can evaluate it. -/
def jsTrim (s : String) : String :=
  ⟨((s.data.dropWhile Char.isWhitespace).reverse.dropWhile Char.isWhitespace).reverse⟩

/-- JS `String.prototype.toLowerCase` (the catalog is ASCII). -/
def jsToLower (s : String) : String := ⟨s.data.map Char.toLower⟩

/-- `isNonEmpty` (line 136): `String(v || '').trim().length > 0`. -/
def isNonEmpty (v : String) : Bool := (jsTrim v).length > 0

/-- Character class `[0-9\s\-\(\)]` of the phone pattern (line 131). -/
def isPhoneClassChar (c : Char) : Bool :=
  c.isDigit || c.isWhitespace || c = '-' || c = '(' || c = ')'

/-- Character class `[A-Za-z0-9]` . -/
def isAlnum (c : Char) : Bool := c.isDigit || c.isAlpha

/-- `patterns.phone = /^\+?[0-9\s\-\(\)]{7,20}$/` applied to the trimmed
value (`isValidPhone`, line 137): optional leading `+`, then 7 to 20
characters of the class. -/
def isValidPhone (v : String) : Bool :=
  let l := (jsTrim v).toList
  let rest := match l with
    | '+' :: t => t
    | t => t
  decide (7 ≤ rest.length) && decide (rest.length ≤ 20) && rest.all isPhoneClassChar

/-- `patterns.policy = /^[A-Za-z0-9\-]{6,25}$/` on the trimmed value
(`isValidPolicy`, line 138). -/
def isValidPolicy (v : String) : Bool :=
  let l := (jsTrim v).toList
  decide (6 ≤ l.length) && decide (l.length ≤ 25) &&
    l.all (fun c => isAlnum c || c = '-')

/-- `patterns.postal = /^[A-Za-z0-9\- ]{3,12}$/` on the trimmed value
(`isValidPostal`, line 139). -/
def isValidPostal (v : String) : Bool :=
  let l := (jsTrim v).toList
  decide (3 ≤ l.length) && decide (l.length ≤ 12) &&
    l.all (fun c => isAlnum c || c = '-' || c = ' ')

/-! ## Date model

The date inputs (`dob`, `coverageStart`) hold either `""` or an ISO
`YYYY-MM-DD` string (the value space of `<input type="date">`).
`new Date(val) <= new Date()` (lines 461, 485) is modelled as numeric
comparison of the parsed ISO triple against the environment's current
date; a string that is not an ISO date parses to an invalid date (NaN),
and every comparison against NaN is false. -/

def digitVal (c : Char) : Nat := c.toNat - '0'.toNat

/-- Parse a strict `YYYY-MM-DD` string to the number
`y*10000 + m*100 + d`; `none` for anything else (invalid date). -/
def isoNum (s : String) : Option Nat :=
  match s.toList with
  | [y1, y2, y3, y4, '-', m1, m2, '-', d1, d2] =>
    if [y1, y2, y3, y4, m1, m2, d1, d2].all Char.isDigit then
      let y := ((digitVal y1 * 10 + digitVal y2) * 10 + digitVal y3) * 10 + digitVal y4
      let m := digitVal m1 * 10 + digitVal m2
      let d := digitVal d1 * 10 + digitVal d2
      some (y * 10000 + m * 100 + d)
    else none
  | _ => none

/-- `new Date(v) <= new Date()` for a date-input value `v`, with the
current date given as an ISO string `today`. Unparseable values give an
invalid date, which compares false. -/
def jsDateLeToday (v today : String) : Bool :=
  match isoNum (jsTrim v), isoNum today with
  | some a, some b => a ≤ b
  | _, _ => false

/-! ## Form data (`state.data`, lines 95-120)

Every canonical field always has a defined value; scalar fields are
strings, `allergies` and `conditions` are lists of strings. The DOM
inputs mirror these values (each `input`/`change` listener copies the
element value into `state.data` before any decision is made), so an
element's `value` is read off this record. -/

structure FormData where
  firstName : String
  lastName : String
  dob : String
  gender : String
  phone : String
  email : String
  address1 : String
  address2 : String
  city : String
  postalCode : String
  country : String
  provider : String
  policyNumber : String
  policyConfirm : String
  groupNumber : String
  coverageStart : String
  insurerPhone : String
  allergies : List String
  conditions : List String
  medications : String
  notes : String
deriving DecidableEq, Repr

/-- The empty defaults of `state.data`. -/
def emptyData : FormData :=
  ⟨"", "", "", "", "", "", "", "", "", "", "", "", "", "", "", "", "", [], [], "", ""⟩

/-- Identifiers of the scalar field elements validateField can be
called on (element ids; `provider-input` is the text input whose value
mirrors `state.data.provider`). -/
inductive FieldId where
  | firstName | lastName | dob | gender | phone | email
  | address1 | address2 | city | postalCode | country
  | providerInput | policyNumber | policyConfirm | groupNumber
  | coverageStart | insurerPhone | medications | notes
deriving DecidableEq, Repr

/-- Raw element value of a scalar field (the elements are kept in sync
with `state.data` by the input listeners; `provider-input` mirrors the
`provider` key, line 373). -/
def fieldRaw (fd : FormData) : FieldId → String
  | .firstName => fd.firstName
  | .lastName => fd.lastName
  | .dob => fd.dob
  | .gender => fd.gender
  | .phone => fd.phone
  | .email => fd.email
  | .address1 => fd.address1
  | .address2 => fd.address2
  | .city => fd.city
  | .postalCode => fd.postalCode
  | .country => fd.country
  | .providerInput => fd.provider
  | .policyNumber => fd.policyNumber
  | .policyConfirm => fd.policyConfirm
  | .groupNumber => fd.groupNumber
  | .coverageStart => fd.coverageStart
  | .insurerPhone => fd.insurerPhone
  | .medications => fd.medications
  | .notes => fd.notes

/-- Environment for the parts of validation that live outside
`src/script.js`. `today` is the current date as an ISO string (the
clock behind `new Date()`); `emailValid` is the browser's
`el.checkValidity()` for the email input. Modelled from the spec:
"Email: ... delegate to a conformant email-format checker" — the
checker itself is not in src, so it is an abstract parameter and the
theorems hold for every checker. -/
structure Env where
  today : String
  emailValid : String → Bool

/-- `validateField` (lines 442-498), restricted to its returned verdict
(the DOM class / message side effects are presentation, per spec §4.1).
`val` is the trimmed element value (line 448). The `default` branch
(line 491, `el.required ? el.checkValidity() : true`) covers
`gender`, `address2`, `groupNumber`, `medications`, `notes`.
Modelled from the spec: the markup (not in src) marks these optional
("All other fields: valid unless marked required-but-empty"), and they
carry no HTML5 pattern, so the branch yields `true`. -/
def validateFieldPure (env : Env) (fd : FormData) : FieldId → Bool
  | .firstName => isNonEmpty fd.firstName
  | .lastName => isNonEmpty fd.lastName
  | .address1 => isNonEmpty fd.address1
  | .city => isNonEmpty fd.city
  | .country => isNonEmpty fd.country
  | .dob => isNonEmpty fd.dob && jsDateLeToday fd.dob env.today
  | .phone => isNonEmpty fd.phone && isValidPhone fd.phone
  | .email => env.emailValid fd.email
  | .postalCode => isValidPostal fd.postalCode
  | .providerInput => isNonEmpty fd.provider
  | .policyNumber => isValidPolicy fd.policyNumber
  | .policyConfirm =>
      -- line 482: `isNonEmpty(val) && val === ($('#policyNumber').value || '')`
      -- where `val` is the TRIMMED confirm value and the policy number
      -- is read raw off its element.
      isNonEmpty (jsTrim fd.policyConfirm) && jsTrim fd.policyConfirm = fd.policyNumber
  | .coverageStart => isNonEmpty fd.coverageStart && jsDateLeToday fd.coverageStart env.today
  | .insurerPhone => !isNonEmpty fd.insurerPhone || isValidPhone fd.insurerPhone
  | .gender => true
  | .address2 => true
  | .groupNumber => true
  | .medications => true
  | .notes => true

/-- `requiredByStep` (lines 502-507). -/
def requiredByStep : Int → List FieldId
  | 1 => [.firstName, .lastName, .dob, .phone, .email, .address1, .city, .postalCode, .country]
  | 2 => [.providerInput, .policyNumber, .policyConfirm, .coverageStart]
  | _ => []

/-- The non-required scalar fields of each step's DOM subtree, in DOM
order, as visited by the `$$('input, select, textarea', stepEl)` loop
(lines 532-541) after its `!requiredIds.includes(el.id)` filter.
Modelled from the spec: the markup is not in src, so the element sets
follow the spec's canonical per-step field list; the allergy text
input, condition checkboxes and buttons of step 3/4 validate under the
`default` branch to `true` and are verdict-neutral, so they are
omitted. Neither list contains a `type === 'date'` element (both date
fields are required, hence filtered out). -/
def stepExtraFields : Int → List FieldId
  | 1 => [.gender, .address2]
  | 2 => [.groupNumber, .insurerPhone]
  | 3 => [.medications, .notes]
  | _ => []

/-- One iteration of the `requiredIds.forEach` accumulator
(lines 515-520): `ok := validateField el; if (allValid && !ok)
firstInvalid = el; allValid = allValid && ok`. -/
def stepAcc (env : Env) (fd : FormData) (acc : Bool × Option FieldId) (id : FieldId) :
    Bool × Option FieldId :=
  let ok := validateFieldPure env fd id
  let firstInvalid := if acc.1 && !ok then some id else acc.2
  (acc.1 && ok, firstInvalid)

/-- `validateStep` (lines 501-544): required fold, then the
`insurerPhone` special case (lines 523-529), then the HTML5-constraint
loop over the step's remaining fields (lines 532-541), which validates
a field only when its raw value is truthy and trims non-empty (no date
fields remain after the required filter). Returns
`(allValid, firstInvalid)`. -/
def validateStep (env : Env) (fd : FormData) (stepNumber : Int) :
    Bool × Option FieldId :=
  let requiredIds := requiredByStep stepNumber
  let r := requiredIds.foldl (stepAcc env fd) (true, none)
  let r :=
    if stepNumber = 2 then
      if fd.insurerPhone ≠ "" && !(validateFieldPure env fd .insurerPhone) then
        (false, r.2.orElse fun _ => some .insurerPhone)
      else r
    else r
  (stepExtraFields stepNumber).foldl
    (fun acc id =>
      if fieldRaw fd id ≠ "" && isNonEmpty (fieldRaw fd id) then
        stepAcc env fd acc id
      else acc) r

/-! ## Application state, persistence and the step controller -/

/-- The mutable module-level `state` (lines 92-124): current step,
field data and the UI preference. `totalSteps` is the constant 4. -/
structure AppState where
  step : Int
  data : FormData
  contrast : Bool
deriving DecidableEq, Repr

def totalSteps : Int := 4

/-- Cold-start state (lines 92-124). -/
def initialState : AppState := ⟨1, emptyData, false⟩

/-- Partial `data` object of a persisted snapshot: each canonical key
may be present or absent (JSON objects found in storage need not carry
every key). `Object.assign` merges only the present ones. -/
structure PartialData where
  firstName : Option String := none
  lastName : Option String := none
  dob : Option String := none
  gender : Option String := none
  phone : Option String := none
  email : Option String := none
  address1 : Option String := none
  address2 : Option String := none
  city : Option String := none
  postalCode : Option String := none
  country : Option String := none
  provider : Option String := none
  policyNumber : Option String := none
  policyConfirm : Option String := none
  groupNumber : Option String := none
  coverageStart : Option String := none
  insurerPhone : Option String := none
  allergies : Option (List String) := none
  conditions : Option (List String) := none
  medications : Option String := none
  notes : Option String := none
deriving DecidableEq, Repr

/-- `Object.assign(state.data, saved.data || {})` (line 233): fields
present in the snapshot overwrite the current value, absent fields keep
it. -/
def mergeData (cur : FormData) (pd : PartialData) : FormData where
  firstName := pd.firstName.getD cur.firstName
  lastName := pd.lastName.getD cur.lastName
  dob := pd.dob.getD cur.dob
  gender := pd.gender.getD cur.gender
  phone := pd.phone.getD cur.phone
  email := pd.email.getD cur.email
  address1 := pd.address1.getD cur.address1
  address2 := pd.address2.getD cur.address2
  city := pd.city.getD cur.city
  postalCode := pd.postalCode.getD cur.postalCode
  country := pd.country.getD cur.country
  provider := pd.provider.getD cur.provider
  policyNumber := pd.policyNumber.getD cur.policyNumber
  policyConfirm := pd.policyConfirm.getD cur.policyConfirm
  groupNumber := pd.groupNumber.getD cur.groupNumber
  coverageStart := pd.coverageStart.getD cur.coverageStart
  insurerPhone := pd.insurerPhone.getD cur.insurerPhone
  allergies := pd.allergies.getD cur.allergies
  conditions := pd.conditions.getD cur.conditions
  medications := pd.medications.getD cur.medications
  notes := pd.notes.getD cur.notes

/-- Totalize a `FormData` into the snapshot `data` object
`JSON.stringify` writes (every key present). JSON round-tripping of
these values (strings, arrays of strings, booleans) is exact, so
serialization is modelled structurally. -/
def somesOf (fd : FormData) : PartialData where
  firstName := some fd.firstName
  lastName := some fd.lastName
  dob := some fd.dob
  gender := some fd.gender
  phone := some fd.phone
  email := some fd.email
  address1 := some fd.address1
  address2 := some fd.address2
  city := some fd.city
  postalCode := some fd.postalCode
  country := some fd.country
  provider := some fd.provider
  policyNumber := some fd.policyNumber
  policyConfirm := some fd.policyConfirm
  groupNumber := some fd.groupNumber
  coverageStart := some fd.coverageStart
  insurerPhone := some fd.insurerPhone
  allergies := some fd.allergies
  conditions := some fd.conditions
  medications := some fd.medications
  notes := some fd.notes

/-! ### JS numbers for the restored step

`saved.step` is an arbitrary JSON value. Its trip through
`Math.min(Math.max(saved.step || 1, 1), state.totalSteps)` (line 232)
uses JS ToNumber coercion; NaN propagates through `Math.max`/`Math.min`.
JS numbers are modelled as `Option ℚ`, `none` standing for NaN. -/

/-- The `step` value found in a parsed snapshot: a JSON number, a JSON
string, or absent (`undefined`). Other JSON types are not needed for
the claims and behave like `jstr` under coercion. -/
inductive JStep where
  | jnum (q : ℚ)
  | jstr (s : String)
  | jabsent
deriving DecidableEq

/-- JS `ToNumber` on a string, restricted to the forms that occur here:
the empty/whitespace string coerces to 0, a string of decimal digits to
its value, anything else to NaN. -/
def jsStrToNum (s : String) : Option ℚ :=
  let t := jsTrim s
  if t = "" then some 0
  else if t.toList.all Char.isDigit then some ((t.toList.foldl (fun a c => a * 10 + digitVal c) 0 : ℕ) : ℚ)
  else none

/-- `Math.max(x, c)` with a NaN-propagating first argument. -/
def jsMax (x : Option ℚ) (c : ℚ) : Option ℚ := x.map (fun q => max q c)

/-- `Math.min(x, c)` with a NaN-propagating first argument. -/
def jsMin (x : Option ℚ) (c : ℚ) : Option ℚ := x.map (fun q => min q c)

/-- `Math.min(Math.max(saved.step || 1, 1), state.totalSteps)`
(line 232): falsy step values (`undefined`, `0`, `""`) default to 1,
everything else is coerced and clamped, NaN surviving the clamp. -/
def restoredStep : JStep → Option ℚ
  | .jabsent => jsMin (jsMax (some 1) 1) 4
  | .jnum q => if q = 0 then jsMin (jsMax (some 1) 1) 4
               else jsMin (jsMax (some q) 1) 4
  | .jstr s => if s = "" then jsMin (jsMax (some 1) 1) 4
               else jsMin (jsMax (jsStrToNum s) 1) 4

/-- A parsed (truthy) persisted snapshot as found in storage: possibly
partial, possibly ill-typed `step`. `contrast` is the truthiness of
`saved.ui && saved.ui.contrast` (line 234), collapsed to a `Bool`. -/
structure PartialSnapshot where
  step : JStep
  data : PartialData
  contrast : Bool
deriving DecidableEq

/-- What `localStorage.getItem(STORE_KEY)` + `JSON.parse` yields
(`loadState`, lines 74-81): `absent` — no record (`getItem` returns
null); `garbage` — a record that fails to parse (the catch returns
null) or parses to a falsy value (`if (!saved) return`); `parsed` — a
truthy parsed value (non-object truthy parses are `parsed` with every
component absent). -/
inductive StoredBlob where
  | absent
  | garbage
  | parsed (p : PartialSnapshot)

/-- Result of startup restore: the step as a JS number (see
`restoredStep`), the merged data, the contrast flag. -/
structure Restored where
  step : Option ℚ
  data : FormData
  contrast : Bool

/-- `restoreFromStorage` (lines 228-256), run at startup against the
cold-start state: a null/falsy load returns early keeping the
defaults; otherwise the step is coerced and clamped and the snapshot's
data object is merged over the defaults. (The DOM refill and chip
rendering are projections of the resulting data.) -/
def restoreFromStorage : StoredBlob → Restored
  | .absent => ⟨some 1, emptyData, false⟩
  | .garbage => ⟨some 1, emptyData, false⟩
  | .parsed p => ⟨restoredStep p.step, mergeData emptyData p.data, p.contrast⟩

/-! ### Persistence and navigation -/

/-- The persisted record under `intakeForm.v1`: `none` when the key is
absent. `saveState` (lines 69-73) writes the full structure snapshot;
`clearState` (lines 82-86) removes it. -/
abbrev Store := Option PartialSnapshot

/-- The snapshot `saveState(state)` serializes (the full `state`
object: step, data, ui). -/
def toSnapshot (st : AppState) : PartialSnapshot :=
  ⟨.jnum st.step, somesOf st.data, st.contrast⟩

/-- `persist` (lines 400-403): `saveState(state)` overwrites the
record (the polite announcement is presentation). -/
def persist (st : AppState) : Store := some (toSnapshot st)

/-- The clamp of `goToStep` (line 580):
`Math.min(Math.max(stepNumber, 1), state.totalSteps)`. -/
def clampStep (n : Int) : Int := min (max n 1) totalSteps

/-- `goToStep` (lines 579-627) restricted to state: clamps the target,
sets `state.step`, and persists (`persist(false)`, line 626). Hiding /
showing containers, progress, focus and announcements are DOM
projections of the resulting step. -/
def goToStep (stepNumber : Int) (st : AppState) : AppState × Store :=
  let s := clampStep stepNumber
  let st' := { st with step := s }
  (st', persist st')

/-- `handleNext` (lines 550-569). `dataNext` is the button's
`data-next` attribute (`none` when absent, in which case
`state.step + 1` is used). On a failing step validation the handler
returns without touching state or storage (focus moves to the first
invalid field and an assertive announcement fires); on success it
navigates (review population at target 4 is a projection) and persists
again. -/
def handleNext (env : Env) (dataNext : Option Int) (st : AppState) (store : Store) :
    AppState × Store :=
  let next := dataNext.getD (st.step + 1)
  let v := validateStep env st.data st.step
  if v.1 then
    let (st', _) := goToStep next st
    (st', persist st')
  else (st, store)

/-- `handleBack` (lines 571-577): `prev` from the button's `data-prev`
attribute or `state.step - 1`, floored at 1, then an unconditional
`goToStep` and a persist. No validation is consulted. -/
def handleBack (dataPrev : Option Int) (st : AppState) (_store : Store) :
    AppState × Store :=
  let prev := dataPrev.getD (st.step - 1)
  let target := max 1 prev
  let (st', _) := goToStep target st
  (st', persist st')

/-- The safety-net loop of `handleSubmit` (lines 904-912): the first
`s ∈ {1,2,3}` whose `validateStep` fails. -/
def firstFailingStep (env : Env) (fd : FormData) : Option Int :=
  [1, 2, 3].find? fun s => !(validateStep env fd s).1

/-- `handleSubmit` (lines 892-970). First the current step is gated
(lines 896-901): a failure returns with no state/storage change. Then
steps 1-3 are re-validated; the first failure navigates there
(`goToStep`, which persists) and aborts. Otherwise the simulated
submission completes (the 900 ms timer is collapsed — the claims say
"eventually"): storage is cleared, `state.data` reset to the empty
defaults, and `goToStep(1)` runs — which persists the reset state
again. -/
def handleSubmit (env : Env) (st : AppState) (store : Store) : AppState × Store :=
  let gate := validateStep env st.data st.step
  if !gate.1 then (st, store)
  else
    match firstFailingStep env st.data with
    | some s => goToStep s st
    | none =>
      let _cleared : Store := none    -- clearState()
      let st1 := { st with data := emptyData }
      goToStep 1 st1                  -- persists st1 with step 1

/-! ## Provider combobox (lines 176-197, 651-784) -/

/-- The static provider catalog `PROVIDERS` (lines 176-197). -/
def PROVIDERS : List String :=
  ["SIGMA Health", "Eurolife Insurance", "Vienna Insurance Group",
   "UNION Health", "Delfin Insurance", "Bupa", "Allianz", "Aetna",
   "Cigna", "Humana", "UnitedHealthcare", "Blue Cross Blue Shield",
   "Kaiser Permanente", "AXA", "Zurich Insurance", "MetLife",
   "Prudential", "Generali", "Engjelli Insurance", "Illyrian Health"]

/-- JS `String.prototype.includes`: substring containment. -/
def includesB (hay needle : List Char) : Bool :=
  needle.isPrefixOf hay ||
    match hay with
    | [] => false
    | _ :: t => includesB t needle

/-- `p.toLowerCase().includes(q)` where
`q = providerInput.value.trim().toLowerCase()` (lines 668-669). -/
def providerFilter (typed : String) : List String :=
  let q := jsToLower (jsTrim typed)
  PROVIDERS.filter fun p => includesB (jsToLower p).toList q.toList

/-- The filter as the spec sentence words it: "the catalog entries
whose name contains the filter text case-insensitively" — no trimming
of the filter text. Stated only to be compared with `providerFilter`. -/
def claimedProviderFilter (typed : String) : List String :=
  PROVIDERS.filter fun p => includesB (jsToLower p).toList (jsToLower typed).toList

/-- Combobox state: the last rendered `providerFiltered` list, the
popup's open/closed flag (`providerListbox.hidden` negated), and the
index of the option `providerActiveId` refers to among the rendered
options (`-1` when `providerActiveId` matches none, as in
`options.findIndex` on line 728). -/
structure ComboState where
  filtered : List String
  isOpen : Bool
  activeIdx : Int
deriving DecidableEq, Repr

/-- `renderProviderList` (lines 694-712): re-renders `items` and points
`providerActiveId` at `provider-opt-0` when non-empty, clearing it
otherwise. -/
def renderList (items : List String) (isOpen : Bool) : ComboState :=
  ⟨items, isOpen, if items.isEmpty then -1 else 0⟩

/-- Initial combobox state (lines 651-657): `providerFiltered` starts
as a copy of `PROVIDERS`, rendered once; the popup starts closed (the
listbox is `hidden` in the markup until opened). -/
def initCombo : ComboState := renderList PROVIDERS false

/-- The debounced input handler (lines 665-679): recompute the filter,
re-render, open when non-empty, close when empty. (It also writes the
raw typed text into `state.data.provider` and validates — that part is
`syncState`/`validateFieldPure .providerInput`.) -/
def onProviderInput (typed : String) (_cs : ComboState) : ComboState :=
  let filtered := providerFilter typed
  renderList filtered !filtered.isEmpty

/-- The toggle button (lines 659-663): flips open/closed, list
unchanged. -/
def onToggleClick (cs : ComboState) : ComboState :=
  { cs with isOpen := !cs.isOpen }

/-- Keys handled by `onProviderKeydown` (lines 725-768) that move the
active option or close the popup. `Enter` is `enterCommit` below. -/
inductive ComboKey where
  | arrowDown | arrowUp | home | kend | escape
deriving DecidableEq

/-- `onProviderKeydown` for the movement/escape keys: each arrow/Home/
End opens the popup first if closed and is a no-op on an empty list;
the index moves clamped to the list bounds (lines 731-754); Escape
closes an open popup (lines 761-766). -/
def onComboKey (k : ComboKey) (cs : ComboState) : ComboState :=
  match k with
  | .escape => if cs.isOpen then { cs with isOpen := false } else cs
  | _ =>
    let cs := { cs with isOpen := true }
    if cs.filtered.isEmpty then cs
    else
      let last : Int := cs.filtered.length - 1
      match k with
      | .arrowDown => { cs with activeIdx := min (cs.activeIdx + 1) last }
      | .arrowUp => { cs with activeIdx := max (cs.activeIdx - 1) 0 }
      | .home => { cs with activeIdx := 0 }
      | .kend => { cs with activeIdx := last }
      | .escape => cs

/-- `Enter` (lines 755-759): only while open and with options rendered;
commits `options[idx >= 0 ? idx : 0]`. Returns the committed option's
text, `none` when nothing is committed. -/
def enterCommit (cs : ComboState) : Option String :=
  if !cs.isOpen then none
  else if cs.filtered.isEmpty then none
  else some (cs.filtered.getD (if cs.activeIdx ≥ 0 then cs.activeIdx.toNat else 0) "")

/-- Clicking rendered option number `i` (lines 683-687): commits that
option when it exists. -/
def clickCommit (i : Nat) (cs : ComboState) : Option String :=
  cs.filtered.get? i

/-- `selectProvider` (lines 777-784) on the combobox state: closes the
popup, list unchanged (the committed text goes into
`state.data.provider`). -/
def afterSelect (cs : ComboState) : ComboState :=
  { cs with isOpen := false }

/-- Combobox states reachable through the handlers wired in
`initProviderCombobox`. -/
inductive comboReach : ComboState → Prop where
  | init : comboReach initCombo
  | input (typed : String) {cs : ComboState} : comboReach cs → comboReach (onProviderInput typed cs)
  | toggle {cs : ComboState} : comboReach cs → comboReach (onToggleClick cs)
  | key (k : ComboKey) {cs : ComboState} : comboReach cs → comboReach (onComboKey k cs)
  | select {cs : ComboState} : comboReach cs → comboReach (afterSelect cs)

/-! ## Allergy chips (lines 790-826) -/

/-- The user-visible outcome of `addAllergyFromInput`. -/
inductive AllergyOutcome where
  | added
  | duplicateNotice   -- `announcePolite('Allergy already added.')`
  | emptyIgnored
deriving DecidableEq, Repr

/-- `addAllergyFromInput` (lines 790-802) on the allergies list: trim
the input; ignore when empty; on a case-sensitive duplicate keep the
list and fire the polite duplicate notice; otherwise push. -/
def addAllergy (allergies : List String) (rawInput : String) :
    List String × AllergyOutcome :=
  let val := jsTrim rawInput
  if val = "" then (allergies, .emptyIgnored)
  else if allergies.contains val then (allergies, .duplicateNotice)
  else (allergies ++ [val], .added)

/-- A chip's remove button (lines 817-821):
`state.data.allergies.splice(index, 1)`. -/
def removeAllergy (i : Nat) (allergies : List String) : List String :=
  allergies.eraseIdx i

/-- Allergy lists reachable from the empty default through the add and
remove handlers. -/
inductive allergyReach : List String → Prop where
  | nil : allergyReach []
  | add (v : String) {l : List String} : allergyReach l → allergyReach (addAllergy l v).1
  | remove (i : Nat) {l : List String} : allergyReach l → allergyReach (removeAllergy i l)

/-! ## Lemmas about `validateStep` -/

section ValidateStepLemmas

variable (env : Env) (fd : FormData)

/-- Once `allValid` is false, the required-field fold changes nothing:
`firstInvalid` is only overwritten while `allValid` still holds. -/
lemma foldl_stepAcc_false (ids : List FieldId) (x : Option FieldId) :
    ids.foldl (stepAcc env fd) (false, x) = (false, x) := by
  induction ids with
  | nil => rfl
  | cons a t ih => simpa [stepAcc] using ih

/-- From the clean accumulator, the required-field fold computes the
conjunction of the verdicts and the first failing field. -/
lemma foldl_stepAcc_true (ids : List FieldId) :
    ids.foldl (stepAcc env fd) (true, none) =
      (ids.all (validateFieldPure env fd),
       ids.find? fun f => !(validateFieldPure env fd f)) := by
  induction ids with
  | nil => rfl
  | cons a t ih =>
    by_cases h : validateFieldPure env fd a = true
    · simp [stepAcc, h, ih]
    · have h' : validateFieldPure env fd a = false := by simpa using h
      simp [stepAcc, h', foldl_stepAcc_false]

/-- The HTML5-constraint loop also changes nothing once `allValid` is
false. -/
lemma foldl_extra_false (ids : List FieldId) (x : Option FieldId) :
    ids.foldl
      (fun acc id =>
        if fieldRaw fd id ≠ "" && isNonEmpty (fieldRaw fd id) then
          stepAcc env fd acc id
        else acc) (false, x) = (false, x) := by
  induction ids with
  | nil => rfl
  | cons a t ih =>
    simp only [List.foldl_cons]
    split
    · simpa [stepAcc] using ih
    · exact ih

/-- When some required field of a step fails, `validateStep` refuses
with exactly the first failing required field. -/
lemma validateStep_required_fail (n : Int)
    (h : (requiredByStep n).all (validateFieldPure env fd) = false) :
    validateStep env fd n =
      (false, (requiredByStep n).find? fun f => !(validateFieldPure env fd f)) := by
  have hex : ∃ x ∈ requiredByStep n, (!(validateFieldPure env fd x)) = true := by
    have hiff := List.all_eq_true (l := requiredByStep n) (p := validateFieldPure env fd)
    rw [← Bool.not_eq_true, hiff] at h
    push_neg at h
    obtain ⟨x, hx, hpx⟩ := h
    have hfx : validateFieldPure env fd x = false := by simpa using hpx
    exact ⟨x, hx, by simp [hfx]⟩
  have hsome : ((requiredByStep n).find? fun f => !(validateFieldPure env fd f)).isSome :=
    List.find?_isSome.mpr hex
  obtain ⟨f0, hf0⟩ := Option.isSome_iff_exists.mp hsome
  by_cases hn : n = 2
  · subst hn
    simp only [validateStep, foldl_stepAcc_true]
    rw [h, hf0]
    simp only [if_true]
    split
    · simpa [Option.orElse] using foldl_extra_false env fd _ _
    · exact foldl_extra_false env fd _ _
  · simp only [validateStep, foldl_stepAcc_true]
    rw [h, hf0, if_neg hn]
    exact foldl_extra_false env fd _ _

end ValidateStepLemmas

/-- A concrete environment for witnesses: today's date and a simple
conformant-enough email shape check (the theorems themselves hold for
every environment). -/
def defEnv : Env := ⟨"2026-10-11", fun s => s.data.contains '@'⟩

/-!
## Claims
-/

/-- **C1.** For every step N and every form state in which at least one
required field of step N fails validation, invoking Next from step N
leaves `NavigationState.step` unchanged — in fact the handler changes
neither the state nor the persisted record — and the refused
transition's `firstInvalid` is exactly the first required field of the
step that fails validation (the field that receives focus and is named
by the assertive announcement). -/
theorem claim_C1_next_refused (env : Env) (st : AppState) (store : Store)
    (dataNext : Option Int)
    (h : ∃ f ∈ requiredByStep st.step, validateFieldPure env st.data f = false) :
    handleNext env dataNext st store = (st, store) ∧
    validateStep env st.data st.step =
      (false, (requiredByStep st.step).find? fun f => !(validateFieldPure env st.data f)) := by
  have hall : (requiredByStep st.step).all (validateFieldPure env st.data) = false := by
    rw [← Bool.not_eq_true, List.all_eq_true]
    push_neg
    obtain ⟨f, hf, hfv⟩ := h
    exact ⟨f, hf, by simp [hfv]⟩
  have hv := validateStep_required_fail env st.data st.step hall
  refine ⟨?_, hv⟩
  simp [handleNext, hv]

/-- Witness for C1: pressing Next on the cold-start state (step 1, all
fields empty) changes nothing and flags `firstName`, the first required
field. -/
theorem claim_C1_next_refused_witness :
    handleNext defEnv none initialState none = (initialState, none) ∧
    validateStep defEnv emptyData 1 = (false, some .firstName) := by
  have h := claim_C1_next_refused defEnv initialState none none
    ⟨.firstName, by decide, by decide⟩
  exact ⟨h.1, h.2.trans (by decide)⟩

/-- A trimmed-nonempty verdict is exactly "the trimmed value is not the
empty string". -/
lemma isNonEmpty_iff (v : String) : isNonEmpty v = true ↔ jsTrim v ≠ "" := by
  unfold isNonEmpty
  rcases hv : jsTrim v with ⟨l⟩
  cases l with
  | nil => simp [String.length]
  | cons a t =>
    simp only [String.length, decide_eq_true_eq]
    constructor
    · intro _ h
      exact absurd (congrArg String.data h) (by simp)
    · intro _
      simp [List.length]

/-- Trimming an already-trimmed string changes nothing. -/
lemma jsTrim_idem (s : String) : jsTrim (jsTrim s) = jsTrim s := by
  unfold jsTrim
  refine congrArg String.mk ?_
  show (((((s.data.dropWhile Char.isWhitespace).rdropWhile Char.isWhitespace)).dropWhile
          Char.isWhitespace).rdropWhile Char.isWhitespace) =
       ((s.data.dropWhile Char.isWhitespace).rdropWhile Char.isWhitespace)
  set ws := Char.isWhitespace with hws
  set m := s.data.dropWhile ws with hm_def
  have hm : m.dropWhile ws = m := by
    rw [hm_def]
    exact List.dropWhile_idempotent ws s.data
  set r := m.rdropWhile ws with hr_def
  have hpre : r <+: m := List.rdropWhile_prefix ws m
  have hr1 : r.dropWhile ws = r := by
    rcases hr : r with _ | ⟨b, t⟩
    · rfl
    · obtain ⟨u, hu⟩ := hpre
      rw [hr] at hu
      have hb : ¬ ws b = true := by
        intro hwsb
        have h2 := hm
        rw [← hu, List.cons_append, List.dropWhile_cons_of_pos hwsb] at h2
        have hle : (List.dropWhile ws (t ++ u)).length ≤ (t ++ u).length :=
          (List.dropWhile_sublist (l := t ++ u) ws).length_le
        have hlen := congrArg List.length h2
        simp only [List.length_cons, List.length_append] at hlen hle
        omega
      exact List.dropWhile_cons_of_neg hb
  calc (r.dropWhile ws).rdropWhile ws = r.rdropWhile ws := by rw [hr1]
    _ = r := by rw [hr_def]; exact List.rdropWhile_idempotent ws m

/-- `isNonEmpty` does not see surrounding whitespace. -/
lemma isNonEmpty_jsTrim (v : String) : isNonEmpty (jsTrim v) = isNonEmpty v := by
  unfold isNonEmpty
  rw [jsTrim_idem]

/-- **C8.** From every step N > 1 and every form state, Back always
succeeds — it consults no validation, so the outcome is the same for
every field data — and the resulting step is N − 1 (whether the
button's `data-prev` hint is absent or carries the normal N − 1), hence
never greater than N. -/
theorem claim_C8_back_ungated (st : AppState) (store : Store) (hint : Option Int)
    (hgt : 1 < st.step) (hle : st.step ≤ totalSteps)
    (hhint : hint = none ∨ hint = some (st.step - 1)) :
    (handleBack hint st store).1.step = st.step - 1 ∧
    (handleBack hint st store).1.step < st.step ∧
    (∀ d : FormData, ∀ c : Bool, ∀ s2 : Store,
       (handleBack hint ⟨st.step, d, c⟩ s2).1.step = st.step - 1) := by
  have key : ∀ d c s2, (handleBack hint ⟨st.step, d, c⟩ s2).1.step = st.step - 1 := by
    intro d c s2
    rcases hhint with h | h <;>
      · subst h
        simp only [handleBack, goToStep, clampStep, totalSteps, Option.getD]
        simp only [totalSteps] at hle
        omega
  have hself : (handleBack hint st store).1.step = st.step - 1 := by
    have := key st.data st.contrast store
    simpa using this
  exact ⟨hself, by omega, key⟩

/-- Witness for C8: Back from step 3 with entirely empty (hence
invalid) data lands on step 2. -/
theorem claim_C8_back_ungated_witness :
    (handleBack none ⟨3, emptyData, false⟩ none).1.step = 3 - 1 ∧
    (handleBack none ⟨3, emptyData, false⟩ none).1.step < 3 := by
  have h := claim_C8_back_ungated ⟨3, emptyData, false⟩ none none
    (by decide) (by decide) (Or.inl rfl)
  exact ⟨h.1, h.2.1⟩

/-- **C6 counterexample.** The claim "validation of `policyConfirm`
succeeds iff `policyConfirm` is non-empty and string-equal to the
current `policyNumber` value" is false as stated: the code trims the
confirmation before comparing, so a confirmation with a leading space
validates although it is not string-equal to the policy number. -/
theorem claim_C6_policy_confirm_counterexample :
    validateFieldPure defEnv
      { emptyData with policyConfirm := " AB-123456", policyNumber := "AB-123456" }
      .policyConfirm = true ∧
    (" AB-123456" : String) ≠ "AB-123456" := by
  constructor
  · decide
  · decide

/-- **C6 (amended).** Validation of `policyConfirm` succeeds iff the
TRIMMED confirmation is non-empty and string-equal to the current raw
`policyNumber` value; and whenever `policyNumber` changes after a
previously-valid confirmation (the confirmation text staying put), the
re-check marks the stale confirmation invalid. -/
theorem claim_C6_policy_confirm (env env2 : Env) (fd fd2 : FormData) :
    (validateFieldPure env fd .policyConfirm = true ↔
       (jsTrim fd.policyConfirm ≠ "" ∧ jsTrim fd.policyConfirm = fd.policyNumber)) ∧
    (validateFieldPure env fd .policyConfirm = true →
     fd2.policyConfirm = fd.policyConfirm →
     fd2.policyNumber ≠ fd.policyNumber →
     validateFieldPure env2 fd2 .policyConfirm = false) := by
  have hval : ∀ e fd', validateFieldPure e fd' FieldId.policyConfirm = true ↔
      (jsTrim fd'.policyConfirm ≠ "" ∧ jsTrim fd'.policyConfirm = fd'.policyNumber) := by
    intro e fd'
    simp only [validateFieldPure, Bool.and_eq_true, decide_eq_true_eq]
    rw [isNonEmpty_jsTrim, isNonEmpty_iff]
  refine ⟨hval env fd, ?_⟩
  intro hv hc hn
  rcases (hval env fd).mp hv with ⟨_, heq⟩
  by_contra hne
  have hv2 : validateFieldPure env2 fd2 FieldId.policyConfirm = true := by
    simpa using hne
  rcases (hval env2 fd2).mp hv2 with ⟨_, heq2⟩
  rw [hc, heq] at heq2
  exact hn heq2.symm

/-- Witness for C6 (amended): with a matching pair the confirmation
validates; after the policy number is edited to a different value the
same confirmation text fails the re-check. -/
theorem claim_C6_policy_confirm_witness :
    validateFieldPure defEnv
      { emptyData with policyConfirm := "AB-123456", policyNumber := "XY-999999" }
      .policyConfirm = false := by
  have h := (claim_C6_policy_confirm defEnv defEnv
      { emptyData with policyConfirm := "AB-123456", policyNumber := "AB-123456" }
      { emptyData with policyConfirm := "AB-123456", policyNumber := "XY-999999" }).2
  exact h (by decide) rfl (by decide)

/-- A fully-valid filled form (under `defEnv`), used to exercise the
success paths. -/
def filledData : FormData where
  firstName := "John"
  lastName := "Doe"
  dob := "1990-01-01"
  gender := "male"
  phone := "+1 555 123 4567"
  email := "john@doe.example"
  address1 := "1 Main St"
  address2 := ""
  city := "Springfield"
  postalCode := "12345"
  country := "US"
  provider := "Allianz"
  policyNumber := "AB-123456"
  policyConfirm := "AB-123456"
  groupNumber := ""
  coverageStart := "2020-01-01"
  insurerPhone := ""
  allergies := ["Penicillin"]
  conditions := ["asthma"]
  medications := ""
  notes := ""

/-- **C2 counterexample.** The claim "invoking Submit while any of
steps 1–3 fails validation sets `NavigationState.step` to the first
failing step" is false as stated: when Submit fires while the CURRENT
step itself fails its own gate (reachable, e.g., by pressing Enter in a
text field of step 2), the handler returns before the steps-1–3 loop
and the step does not move to the first failing step. Concretely, on
the all-empty form at step 2 the first failing step is 1, yet submit
leaves the step at 2. -/
theorem claim_C2_submit_counterexample :
    firstFailingStep defEnv emptyData = some 1 ∧
    (handleSubmit defEnv ⟨2, emptyData, false⟩ none).1.step = 2 ∧
    (2 : Int) ≠ 1 := by
  refine ⟨by decide, by decide, by decide⟩

/-- **C2 (amended).** When Submit is invoked while the current step
passes its own gate (in particular, always from the review step) and
some of steps 1–3 fails validation, the step becomes the first failing
step and FormData is unchanged; the persisted snapshot is not cleared —
it is re-persisted with the same FormData and the updated step. When
the current step fails its own gate, nothing changes at all. When all
steps are valid, the submission eventually resets every FormData field
to its empty default and returns the step to 1; the snapshot is deleted
and then immediately re-written by the final navigation, so storage
ends up holding a snapshot of the reset state rather than staying
deleted. -/
theorem claim_C2_submit (env : Env) (st : AppState) (store : Store) :
    ((validateStep env st.data st.step).1 = false →
        handleSubmit env st store = (st, store)) ∧
    (∀ s : Int, (validateStep env st.data st.step).1 = true →
        firstFailingStep env st.data = some s →
        handleSubmit env st store =
          (⟨clampStep s, st.data, st.contrast⟩,
           some (toSnapshot ⟨clampStep s, st.data, st.contrast⟩))) ∧
    ((validateStep env st.data st.step).1 = true →
        firstFailingStep env st.data = none →
        handleSubmit env st store =
          (⟨1, emptyData, st.contrast⟩,
           some (toSnapshot ⟨1, emptyData, st.contrast⟩))) := by
  refine ⟨?_, ?_, ?_⟩
  · intro h
    simp [handleSubmit, h]
  · intro s hg hf
    simp [handleSubmit, hg, hf, goToStep, persist]
  · intro hg hf
    have h1 : clampStep 1 = 1 := by decide
    simp [handleSubmit, hg, hf, goToStep, persist, h1]

/-- Witness for C2 (amended): submitting the fully-valid form from the
review step resets the data, returns to step 1, and leaves a snapshot
of the reset state in storage. -/
theorem claim_C2_submit_witness :
    handleSubmit defEnv ⟨4, filledData, false⟩ none =
      (⟨1, emptyData, false⟩, some (toSnapshot ⟨1, emptyData, false⟩)) := by
  have h := (claim_C2_submit defEnv ⟨4, filledData, false⟩ none).2.2
  exact h (by decide) (by decide)

/-- Every `goToStep` target lands in `[1, 4]`. -/
lemma clampStep_mem (n : Int) : 1 ≤ clampStep n ∧ clampStep n ≤ 4 := by
  unfold clampStep totalSteps
  omega

/-- **C3 counterexample.** The claim "`NavigationState.step` is always
an integer in `[1, totalSteps]` … the step restored from a persisted
snapshot is likewise clamped to `[1,4]` … so no operation can ever make
step leave `[1, 4]`" is false as stated: a snapshot whose `step` field
is the string `"abc"` restores to NaN (`Math.max` coerces the string
and propagates NaN through the clamp), and a snapshot whose `step` is
the number `2.5` restores to `2.5` — inside the interval but not an
integer. -/
theorem claim_C3_step_invariant_counterexample :
    restoredStep (.jstr "abc") = none ∧
    ¬ (∃ m : ℤ, restoredStep (.jnum (5 / 2)) = some (m : ℚ) ∧ 1 ≤ m ∧ m ≤ 4) := by
  constructor
  · decide
  · rintro ⟨m, hm, _, _⟩
    have hval : restoredStep (.jnum (5 / 2)) = some (5 / 2 : ℚ) := by
      have h0 : ((5 : ℚ) / 2) ≠ 0 := by norm_num
      have h1 : max ((5 : ℚ) / 2) 1 = 5 / 2 := by norm_num
      have h2 : min ((5 : ℚ) / 2) 4 = 5 / 2 := by norm_num
      simp [restoredStep, jsMin, jsMax, h0, h1, h2]
    rw [hval] at hm
    have hq : ((m : ℚ)) = 5 / 2 := by
      exact_mod_cast (Option.some.inj hm).symm
    have h2 : ((2 * m : ℤ) : ℚ) = 5 := by push_cast; rw [hq]; ring
    have : (2 * m : ℤ) = 5 := by exact_mod_cast h2
    omega

/-- **C3 (amended).** Every navigation request is clamped silently into
`[1, totalSteps]`; a persisted snapshot whose `step` field is an
integer (or absent) restores to an integer in `[1,4]` (absent defaults
to 1); and, given that, every operation of the controller — `goToStep`,
Next, Back, Submit — leaves `step` an integer in `[1, 4]`. The claim's
full generality fails only for snapshots whose `step` field is not an
integer (see the counterexample). -/
theorem claim_C3_step_clamped (n : Int) (env : Env) (st : AppState) (store : Store)
    (hint tgt : Option Int)
    (h1 : 1 ≤ st.step) (h4 : st.step ≤ 4) :
    (1 ≤ clampStep n ∧ clampStep n ≤ 4) ∧
    (1 ≤ (goToStep n st).1.step ∧ (goToStep n st).1.step ≤ 4) ∧
    (∀ k : ℤ, ∃ m : ℤ, restoredStep (.jnum (k : ℚ)) = some (m : ℚ) ∧ 1 ≤ m ∧ m ≤ 4) ∧
    restoredStep .jabsent = some 1 ∧
    (1 ≤ (handleNext env tgt st store).1.step ∧ (handleNext env tgt st store).1.step ≤ 4) ∧
    (1 ≤ (handleBack hint st store).1.step ∧ (handleBack hint st store).1.step ≤ 4) ∧
    (1 ≤ (handleSubmit env st store).1.step ∧ (handleSubmit env st store).1.step ≤ 4) := by
  have hclamp : ∀ x : Int, 1 ≤ clampStep x ∧ clampStep x ≤ 4 := clampStep_mem
  refine ⟨hclamp n, ?_, ?_, by decide, ?_, ?_, ?_⟩
  · exact hclamp n
  · intro k
    by_cases hk : (k : ℚ) = 0
    · exact ⟨1, by simp [restoredStep, hk, jsMin, jsMax], by omega, by omega⟩
    · refine ⟨min (max k 1) 4, ?_, by omega, by omega⟩
      simp only [restoredStep, if_neg hk, jsMax, jsMin, Option.map_some']
      push_cast
      rfl
  · by_cases hv : (validateStep env st.data st.step).1 = true
    · simp only [handleNext, hv, if_true]
      exact hclamp _
    · have hv' : (validateStep env st.data st.step).1 = false := by simpa using hv
      simp only [handleNext, hv', Bool.false_eq_true, if_false]
      exact ⟨h1, h4⟩
  · exact hclamp _
  · by_cases hg : (validateStep env st.data st.step).1 = true
    · cases hf : firstFailingStep env st.data with
      | none => simp only [handleSubmit, hg, hf, Bool.not_true, Bool.false_eq_true,
          if_false]; exact hclamp _
      | some s => simp only [handleSubmit, hg, hf, Bool.not_true, Bool.false_eq_true,
          if_false]; exact hclamp _
    · have hg' : (validateStep env st.data st.step).1 = false := by simpa using hg
      simp only [handleSubmit, hg', Bool.not_false, if_true]
      exact ⟨h1, h4⟩

/-- Witness for C3 (amended): a request for step 99 from a mid-form
state clamps to 4, and Next/Back/Submit stay inside `[1,4]`. -/
theorem claim_C3_step_clamped_witness :
    (1 ≤ clampStep 99 ∧ clampStep 99 ≤ 4) ∧
    (1 ≤ (goToStep 99 ⟨2, emptyData, false⟩).1.step ∧
      (goToStep 99 ⟨2, emptyData, false⟩).1.step ≤ 4) := by
  have h := claim_C3_step_clamped 99 defEnv ⟨2, emptyData, false⟩ none none none
    (by decide) (by decide)
  exact ⟨h.1, h.2.1⟩

/-- **C4.** Serializing the application state to the persisted blob
and restoring it reproduces every FormData field exactly — in
particular the allergies sequence, its order, and its duplicate-free
property survive the round trip. -/
theorem claim_C4_persist_roundtrip (st : AppState) :
    (restoreFromStorage (.parsed (toSnapshot st))).data = st.data ∧
    (restoreFromStorage (.parsed (toSnapshot st))).data.allergies = st.data.allergies ∧
    ((restoreFromStorage (.parsed (toSnapshot st))).data.allergies.Nodup ↔
      st.data.allergies.Nodup) := by
  have h : (restoreFromStorage (.parsed (toSnapshot st))).data = st.data := rfl
  exact ⟨h, congrArg FormData.allergies h, by rw [h]⟩

/-- The `data` keys a snapshot may carry, read off the partial object
(the shape all canonical scalar keys of the persisted `data` object
take). -/
def partialField (pd : PartialData) : FieldId → Option String
  | .firstName => pd.firstName
  | .lastName => pd.lastName
  | .dob => pd.dob
  | .gender => pd.gender
  | .phone => pd.phone
  | .email => pd.email
  | .address1 => pd.address1
  | .address2 => pd.address2
  | .city => pd.city
  | .postalCode => pd.postalCode
  | .country => pd.country
  | .providerInput => pd.provider
  | .policyNumber => pd.policyNumber
  | .policyConfirm => pd.policyConfirm
  | .groupNumber => pd.groupNumber
  | .coverageStart => pd.coverageStart
  | .insurerPhone => pd.insurerPhone
  | .medications => pd.medications
  | .notes => pd.notes

/-- **C5 counterexample.** The claim "for every persisted record that
is absent, unparseable, or malformed (partial or garbage content),
startup restore behaves exactly as if no snapshot existed … partial
data is never partially merged into FormData" is false as stated: a
parseable partial snapshot carrying only `firstName` IS partially
merged — the restored state differs from the cold-start defaults in
exactly that field. -/
theorem claim_C5_malformed_counterexample :
    (restoreFromStorage
        (.parsed ⟨.jnum 1, { firstName := some "Bob" }, false⟩)).data.firstName = "Bob" ∧
    (restoreFromStorage
        (.parsed ⟨.jnum 1, { firstName := some "Bob" }, false⟩)).data ≠ emptyData := by
  exact ⟨by decide, by decide⟩

/-- **C5 (amended).** An absent record, and a record that fails to
parse (or parses to a falsy value), restore exactly to the cold-start
state. A record that parses to a truthy value, however, is trusted
field-by-field: each canonical field present in its `data` object
overwrites the default and each absent field keeps its default — so
partial data IS partially merged rather than rejected. -/
theorem claim_C5_malformed_restore :
    restoreFromStorage .absent = ⟨some 1, emptyData, false⟩ ∧
    restoreFromStorage .garbage = ⟨some 1, emptyData, false⟩ ∧
    (∀ (p : PartialSnapshot) (f : FieldId),
        fieldRaw (restoreFromStorage (.parsed p)).data f =
          (partialField p.data f).getD (fieldRaw emptyData f)) ∧
    (∀ p : PartialSnapshot,
        (restoreFromStorage (.parsed p)).data.allergies = p.data.allergies.getD [] ∧
        (restoreFromStorage (.parsed p)).data.conditions = p.data.conditions.getD []) := by
  refine ⟨rfl, rfl, ?_, fun p => ⟨rfl, rfl⟩⟩
  intro p f
  cases f <;> rfl

/-- **C7 counterexample.** The claim "the recomputed `filteredList` is
exactly the catalog entries whose name contains the filter text
case-insensitively" is false as stated: the code trims the typed text
before filtering, so typing `" Allianz"` (leading space) yields
`["Allianz"]`, while no catalog entry contains the untrimmed string
`" Allianz"` case-insensitively. -/
theorem claim_C7_provider_filter_counterexample :
    providerFilter " Allianz" = ["Allianz"] ∧
    claimedProviderFilter " Allianz" = [] ∧
    (["Allianz"] : List String) ≠ [] := by
  exact ⟨by decide, by decide, by decide⟩

/-- **C7 (amended).** For every typed filter text, the recomputed
`filteredList` is exactly the catalog entries whose lower-cased name
contains the lower-cased TRIMMED filter text, in catalog order (a
sublist of the catalog); if the result is non-empty the active option
resets to the first entry and the popup opens, and if it is empty the
popup closes; in particular typing `"Allianz"` yields
`filteredList = ["Allianz"]`. -/
theorem claim_C7_provider_filter (typed : String) (cs : ComboState) :
    (onProviderInput typed cs).filtered =
      PROVIDERS.filter
        (fun p => includesB (jsToLower p).toList (jsToLower (jsTrim typed)).toList) ∧
    (onProviderInput typed cs).filtered.Sublist PROVIDERS ∧
    ((onProviderInput typed cs).filtered ≠ [] →
        (onProviderInput typed cs).activeIdx = 0 ∧
        (onProviderInput typed cs).isOpen = true) ∧
    ((onProviderInput typed cs).filtered = [] →
        (onProviderInput typed cs).isOpen = false) ∧
    providerFilter "Allianz" = ["Allianz"] := by
  refine ⟨rfl, List.filter_sublist _, ?_, ?_, by decide⟩
  · intro h
    have hne : (providerFilter typed).isEmpty = false := by
      simpa [onProviderInput, renderList, List.isEmpty_iff] using h
    constructor
    · simp [onProviderInput, renderList, hne]
    · simp [onProviderInput, renderList, hne]
  · intro h
    have hne : (providerFilter typed).isEmpty = true := by
      simpa [onProviderInput, renderList, List.isEmpty_iff] using h
    simp [onProviderInput, renderList, hne]

/-- Witness for C7 (amended): typing `"Allianz"` ends with the single
matching entry, the active option on it, and the popup open. -/
theorem claim_C7_provider_filter_witness :
    (onProviderInput "Allianz" initCombo).activeIdx = 0 ∧
    (onProviderInput "Allianz" initCombo).isOpen = true := by
  exact (claim_C7_provider_filter "Allianz" initCombo).2.2.1 (by decide)

/-- Invariant of the allergy chip list: reachable lists are
duplicate-free and contain no empty entry (every stored entry was a
trimmed non-empty input). -/
lemma allergyReach_inv {l : List String} (h : allergyReach l) :
    l.Nodup ∧ "" ∉ l := by
  induction h with
  | nil => exact ⟨List.nodup_nil, by simp⟩
  | add v h ih =>
    rename_i l
    by_cases h1 : jsTrim v = ""
    · simpa [addAllergy, h1] using ih
    · by_cases h2 : jsTrim v ∈ l
      · simpa [addAllergy, h1, h2] using ih
      · have hnm : jsTrim v ∉ l := h2
        have hl' : (addAllergy l v).1 = l ++ [jsTrim v] := by
          simp [addAllergy, h1, h2]
        rw [hl']
        constructor
        · rw [List.nodup_append]
          refine ⟨ih.1, by simp, ?_⟩
          intro a ha hb
          simp only [List.mem_singleton] at hb
          subst hb
          exact hnm ha
        · intro hc
          rcases List.mem_append.mp hc with hc | hc
          · exact ih.2 hc
          · simp only [List.mem_singleton] at hc
            exact h1 hc.symm
  | remove i h ih =>
    exact ⟨ih.1.sublist (List.eraseIdx_sublist _ _),
           fun hc => ih.2 ((List.eraseIdx_sublist _ _).subset hc)⟩

/-- **C9.** The allergies sequence never contains duplicates (every
list reachable through the add/remove handlers is duplicate-free), and
adding text that is already present (case-sensitive comparison, after
trimming) leaves the sequence unchanged with a single occurrence of the
entry and produces the polite "already added" notice rather than an
error. -/
theorem claim_C9_allergy_duplicates :
    (∀ l, allergyReach l → l.Nodup) ∧
    (∀ (l : List String) (v : String), allergyReach l → jsTrim v ∈ l →
        addAllergy l v = (l, .duplicateNotice) ∧ l.count (jsTrim v) = 1) := by
  refine ⟨fun l h => (allergyReach_inv h).1, ?_⟩
  intro l v hr hmem
  obtain ⟨hnd, hnil⟩ := allergyReach_inv hr
  have h1 : jsTrim v ≠ "" := fun he => hnil (he ▸ hmem)
  refine ⟨by simp [addAllergy, h1, hmem], ?_⟩
  exact List.count_eq_one_of_mem hnd hmem

/-- Witness for C9: with `["Peanut"]` already stored, adding
`" Peanut "` again changes nothing, produces the duplicate notice, and
the entry occurs exactly once. -/
theorem claim_C9_allergy_duplicates_witness :
    addAllergy ["Peanut"] " Peanut " = (["Peanut"], .duplicateNotice) ∧
    (["Peanut"] : List String).count "Peanut" = 1 := by
  have hr : allergyReach ["Peanut"] := by
    have h := allergyReach.add "Peanut" allergyReach.nil
    simpa [addAllergy] using h
  have h := claim_C9_allergy_duplicates.2 ["Peanut"] " Peanut " hr (by decide)
  rw [show jsTrim " Peanut " = "Peanut" from by decide] at h
  exact h

/-- Invariant of the combobox: the rendered list is always some filter
of the catalog, and the active index stays in `[-1, length)` (the
`findIndex` convention). -/
lemma comboReach_inv {cs : ComboState} (h : comboReach cs) :
    (∃ q, cs.filtered = providerFilter q) ∧
    -1 ≤ cs.activeIdx ∧ cs.activeIdx < cs.filtered.length := by
  induction h with
  | init =>
    refine ⟨⟨"", by decide⟩, by decide, by decide⟩
  | input typed h ih =>
    unfold onProviderInput renderList
    refine ⟨⟨typed, rfl⟩, ?_, ?_⟩
    · by_cases he : (providerFilter typed).isEmpty <;> simp [he]
    · by_cases he : (providerFilter typed).isEmpty = true
      · simp [he, List.isEmpty_iff.mp he]
      · have : providerFilter typed ≠ [] := by
          simpa [List.isEmpty_iff] using he
        have : 0 < (providerFilter typed).length := List.length_pos.mpr this
        simp only [he, if_false]
        omega
  | toggle h ih => exact ih
  | key k h ih =>
    rename_i cs'
    obtain ⟨hq, hlo, hhi⟩ := ih
    cases k with
    | escape =>
      by_cases ho : cs'.isOpen <;> simp [onComboKey, ho] <;> exact ⟨hq, hlo, hhi⟩
    | arrowDown =>
      by_cases he : cs'.filtered.isEmpty = true
      · simpa [onComboKey, he] using ⟨hq, hlo, hhi⟩
      · have hp : 0 < cs'.filtered.length :=
          List.length_pos.mpr (by simpa [List.isEmpty_iff] using he)
        refine ⟨by simpa [onComboKey, he] using hq, ?_, ?_⟩ <;>
          · simp only [onComboKey, he, Bool.false_eq_true, if_false]
            omega
    | arrowUp =>
      by_cases he : cs'.filtered.isEmpty = true
      · simpa [onComboKey, he] using ⟨hq, hlo, hhi⟩
      · have hp : 0 < cs'.filtered.length :=
          List.length_pos.mpr (by simpa [List.isEmpty_iff] using he)
        refine ⟨by simpa [onComboKey, he] using hq, ?_, ?_⟩ <;>
          · simp only [onComboKey, he, Bool.false_eq_true, if_false]
            omega
    | home =>
      by_cases he : cs'.filtered.isEmpty = true
      · simpa [onComboKey, he] using ⟨hq, hlo, hhi⟩
      · have hp : 0 < cs'.filtered.length :=
          List.length_pos.mpr (by simpa [List.isEmpty_iff] using he)
        refine ⟨by simpa [onComboKey, he] using hq, ?_, ?_⟩ <;>
          · simp only [onComboKey, he, Bool.false_eq_true, if_false]
            omega
    | kend =>
      by_cases he : cs'.filtered.isEmpty = true
      · simpa [onComboKey, he] using ⟨hq, hlo, hhi⟩
      · have hp : 0 < cs'.filtered.length :=
          List.length_pos.mpr (by simpa [List.isEmpty_iff] using he)
        refine ⟨by simpa [onComboKey, he] using hq, ?_, ?_⟩ <;>
          · simp only [onComboKey, he, Bool.false_eq_true, if_false]
            omega
  | select h ih => exact ih

/-- **C10.** In every reachable combobox state, a commit — Enter while
the popup is open, or a click on a rendered option — always yields a
member of the static `PROVIDERS` catalog, because the committed option
is drawn from the rendered filtered list, itself a filter of the
catalog. (Only raw typing can put a non-catalog value into the
`provider` field.) -/
theorem claim_C10_commit_in_catalog (cs : ComboState) (h : comboReach cs) :
    (∀ v, enterCommit cs = some v → v ∈ PROVIDERS) ∧
    (∀ (i : Nat) (v : String), clickCommit i cs = some v → v ∈ PROVIDERS) := by
  obtain ⟨⟨q, hq⟩, hlo, hhi⟩ := comboReach_inv h
  have hsub : ∀ x ∈ cs.filtered, x ∈ PROVIDERS := by
    intro x hx
    rw [hq] at hx
    unfold providerFilter at hx
    exact List.mem_of_mem_filter hx
  constructor
  · intro v hv
    unfold enterCommit at hv
    split at hv
    · exact absurd hv (by simp)
    · split at hv
      · exact absurd hv (by simp)
      · rename_i hopen hne
        have hpos : 0 < cs.filtered.length :=
          List.length_pos.mpr (by simpa [List.isEmpty_iff] using hne)
        have hk : (if cs.activeIdx ≥ 0 then cs.activeIdx.toNat else 0) <
            cs.filtered.length := by
          split <;> omega
        have hget : cs.filtered.getD
            (if cs.activeIdx ≥ 0 then cs.activeIdx.toNat else 0) "" ∈ cs.filtered := by
          rw [List.getD_eq_getElem _ _ hk]
          exact List.getElem_mem hk
        exact hsub v (Option.some.inj hv ▸ hget)
  · intro i v hv
    exact hsub v (List.get?_mem hv)

/-- Witness for C10: opening the untouched combobox with the toggle and
pressing Enter commits the first catalog entry. -/
theorem claim_C10_commit_in_catalog_witness :
    enterCommit (onToggleClick initCombo) = some "SIGMA Health" ∧
    "SIGMA Health" ∈ PROVIDERS := by
  have h := claim_C10_commit_in_catalog (onToggleClick initCombo)
    (comboReach.toggle comboReach.init)
  exact ⟨by decide, h.1 "SIGMA Health" (by decide)⟩

end Intake
